import Mathlib

/-!
Shallow embedding of the gamma_ray linear-algebra core
(`src/algebra/linear/mat.rs` and `src/algebra/linear/dynamic.rs`).

Conventions of the embedding:
* A fixed `Matrix<T, M, N>` owns `data : [[T; M]; N]`, i.e. `N` outer arrays
  each of length `M`; the index operator `self[[a,b]]` is `data[a][b]`.
  We embed the backing store as `List (List α)` together with the
  well-formedness predicate `WFd d M N` (outer length `N`, inner lengths `M`)
  that the Rust types guarantee statically.
* A `DMatrix<T>` owns `data : Vec<Vec<T>>` (a list of columns) and a cached
  `size : (usize, usize)`; `DVector<T>` owns `data : Vec<T>` and `len`.
* Rust panics (failed `assert_eq!`, out-of-bounds indexing, `unimplemented!`)
  are modelled by `Option`: `none` is a panic, `some` a normal return.
* Machine integers only appear as loop indices / lengths and never overflow in
  the modelled code paths, so they are embedded as `Nat`.
* Element types are generic in the source (`T: Scalar + Closed*` etc.); the
  embedding is generic over `α` with the corresponding operation classes, and
  `T::default()` (Rust `Default`) is `default` from `Inhabited α`
  (for `Int` this is `0`, matching Rust's numeric defaults).
-/

namespace GammaRay

/-- Checked 2-D read `d[i][j]`: `none` models the Rust index panic. -/
def getCell (d : List (List α)) (i j : Nat) : Option α :=
  match d.get? i with
  | none => none
  | some r => r.get? j

/-- Checked 2-D write `d[i][j] = v`: `none` models the Rust index panic. -/
def setCell (d : List (List α)) (i j : Nat) (v : α) : Option (List (List α)) :=
  match d.get? i with
  | none => none
  | some r => if j < r.length then some (d.set i (r.set j v)) else none

/-- Well-formedness of a 2-D store: outer length `cols`, each inner list of
length `rows`.  For the fixed `Matrix<T,M,N>` (`data : [[T;M];N]`) this is
`WFd d M N`; for a `DMatrix` with `size = (r, c)` it is `WFd data r c`. -/
def WFd (d : List (List α)) (rows cols : Nat) : Prop :=
  d.length = cols ∧ ∀ r ∈ d, r.length = rows

instance (d : List (List α)) (rows cols : Nat) : Decidable (WFd d rows cols) := by
  unfold WFd; infer_instance

/-- `SquareMatrix::determinant` (`mat.rs:225-256`), for a square matrix of
dimension `M` with backing store `d` (`self[[a,b]]` = `d[a][b]`).
The `N=2` arm reproduces the source exactly, including its
`self[[1,0]] * self[[1,0]]` off-diagonal term; the `_` arm is
`unimplemented!`, modelled as `none`. -/
def determinant [One α] [Mul α] [Add α] [Sub α]
    (M : Nat) (d : List (List α)) : Option α :=
  match M with
  | 0 => some 1
  | 1 => getCell d 0 0
  | 2 => do
      let a ← getCell d 0 0
      let d11 ← getCell d 1 1
      let b ← getCell d 1 0
      some (a * d11 - b * b)
  | 3 => do
      let e11 ← getCell d 0 0
      let e12 ← getCell d 0 1
      let e13 ← getCell d 0 2
      let e21 ← getCell d 1 0
      let e22 ← getCell d 1 1
      let e23 ← getCell d 1 2
      let e31 ← getCell d 2 0
      let e32 ← getCell d 2 1
      let e33 ← getCell d 2 2
      let minor1 := e22 * e33 - e32 * e23
      let minor2 := e21 * e33 - e31 * e23
      let minor3 := e21 * e32 - e31 * e22
      some (e11 * minor1 - e12 * minor2 + e13 * minor3)
  | _ + 4 => none

/-- `DVector<T>` (`dynamic.rs:7-11`). -/
structure DVector (α : Type) where
  data : List α
  len : Nat
deriving DecidableEq, Repr

/-- `DMatrix<T>` (`dynamic.rs:100-104`): `data` is a list of columns,
`size = (per-column length, column count)` — Rust `size.0` is Lean `size.1`
(`Prod.fst`) and Rust `size.1` is Lean `size.2` (`Prod.snd`). -/
structure DMatrix (α : Type) where
  data : List (List α)
  size : Nat × Nat
deriving DecidableEq, Repr

/-- `DVector::new` (`dynamic.rs:14-17`). -/
def DVector.new (data : List α) : DVector α :=
  ⟨data, data.length⟩

/-- `DMatrix::new` (`dynamic.rs:107-115`): `size.1 = data.len()`, and
`size.0 = data[0].len()` when nonempty. -/
def DMatrix.new (data : List (List α)) : DMatrix α :=
  ⟨data, (match data with | [] => 0 | c :: _ => c.length, data.length)⟩

/-- The `DMatrix` data-model invariant (spec §3): every column has length
`size.0` and there are `size.1` columns. -/
def DMatrix.WF (A : DMatrix α) : Prop :=
  WFd A.data A.size.1 A.size.2

instance (A : DMatrix α) : Decidable A.WF := by
  unfold DMatrix.WF; infer_instance

/-- `DMatrix::default_with_size` (`dynamic.rs:142-147`):
`vec![vec![T::default(); size.0]; size.1]`. -/
def DMatrix.default_with_size [Inhabited α] (size : Nat × Nat) : DMatrix α :=
  ⟨List.replicate size.2 (List.replicate size.1 default), size⟩

/-- `impl From<DVector<T>> for DMatrix<T>` (`dynamic.rs:243-251`):
`data = vec![rhs.data]`, `size = (len, 0)` — the source records `0`, not `1`,
in the column-count slot. -/
def DMatrix.fromDVector (rhs : DVector α) : DMatrix α :=
  ⟨[rhs.data], (rhs.len, 0)⟩

/-- `impl From<DMatrix<T>> for DVector<T>` (`dynamic.rs:90-98`):
`assert_eq!(rhs.size.1, 1)` then copy `rhs.data[0]` with `len = rhs.size.0`. -/
def DVector.fromDMatrix (rhs : DMatrix α) : Option (DVector α) :=
  if rhs.size.2 = 1 then
    (rhs.data.get? 0).map (fun c => ⟨c, rhs.size.1⟩)
  else
    none

/-- Rust's `str::split(pattern)` for a single-character pattern, keeping
empty pieces, on the character sequence of the string (always returns at
least one piece). -/
def splitOnChar (sep : Char) : List Char → List (List Char)
  | [] => [[]]
  | c :: rest =>
    let r := splitOnChar sep rest
    if c = sep then [] :: r
    else
      match r with
      | [] => [[c]]
      | p :: ps => (c :: p) :: ps

/-- One parsed decimal digit, `none` on a non-digit character. -/
def digitVal (c : Char) : Option Nat :=
  if c.isDigit then some (c.toNat - 48) else none

/-- Accumulate decimal digits left to right; any non-digit fails. -/
def parseDigitsAux (acc : Nat) : List Char → Option Nat
  | [] => some acc
  | c :: cs =>
    match digitVal c with
    | none => none
    | some v => parseDigitsAux (acc * 10 + v) cs

/-- A nonempty all-digit run, as a `Nat`. -/
def parseNatDigits (cs : List Char) : Option Nat :=
  match cs with
  | [] => none
  | _ => parseDigitsAux 0 cs

/-- Integer parsing as done by Rust's `FromStr` for signed integers (an
optional sign followed by at least one decimal digit; anything else fails),
on a token's character sequence, embedded without a fixed bit-width since
the modelled tokens are tiny. -/
def parseInt (s : List Char) : Option Int :=
  match s with
  | [] => none
  | '-' :: cs => (parseNatDigits cs).map (fun n => -(n : Int))
  | '+' :: cs => (parseNatDigits cs).map (fun n => (n : Int))
  | cs => (parseNatDigits cs).map (fun n => (n : Int))

/-- `impl From<&str> for DVector<T>` (`dynamic.rs:335-345`): split on spaces
and parse each token, with a failed parse replaced by `T::default()`
(`unwrap_or_else(|t| <T>::default())`).  The element parser `p` plays the
role of the `FromStr` bound. -/
def DVector.fromString [Inhabited α] (p : List Char → Option α)
    (rhs : String) : DVector α :=
  let data := (splitOnChar ' ' rhs.data).map (fun val => (p val).getD default)
  ⟨data, data.length⟩

/-- `impl From<&str> for DMatrix<T>` (`dynamic.rs:376-391`): split on `;`
into columns, split each column on spaces, parse each token with the
`T::default()` fallback; `size = (cols_t[0].len(), cols_t.len())`.
The unchecked `cols_t[0]` index is modelled faithfully (`none` on an empty
split result, which `split` never produces). -/
def DMatrix.fromString [Inhabited α] (p : List Char → Option α)
    (rhs : String) : Option (DMatrix α) :=
  let cols_t := (splitOnChar ';' rhs.data).map
    (fun s => (splitOnChar ' ' s).map (fun val => (p val).getD default))
  match cols_t with
  | [] => none
  | c0 :: _ => some ⟨cols_t, (c0.length, cols_t.length)⟩

/-- Inner loop of `impl Add for DMatrix` (`dynamic.rs:152-161`): for a fixed
row `m`, run `mat.data[n][m] += rhs.data[n][m]` for `n = 0, …, cnt-1`. -/
def addCol [Add α] (Bd : List (List α)) (m : Nat) :
    Nat → List (List α) → Option (List (List α))
  | 0, d => some d
  | n + 1, d => do
    let d' ← addCol Bd m n d
    let b ← getCell Bd n m
    let a ← getCell d' n m
    setCell d' n m (a + b)

/-- Outer loop of `impl Add for DMatrix` (`dynamic.rs:152-161`): rows
`m = 0, …, cnt-1`, each running `addCol` over all `cols` columns. -/
def addRows [Add α] (Bd : List (List α)) (cols : Nat) :
    Nat → List (List α) → Option (List (List α))
  | 0, d => some d
  | m + 1, d => do
    let d' ← addRows Bd cols m d
    addCol Bd m cols d'

/-- `impl Add for DMatrix` (`dynamic.rs:149-162`): `assert_eq!` of the two
sizes (`none` on mismatch), then clone `self` and add `rhs` elementwise over
`m in 0..size.0`, `n in 0..size.1`. -/
def DMatrix.add [Add α] (A B : DMatrix α) : Option (DMatrix α) :=
  if A.size = B.size then
    (addRows B.data A.size.2 A.size.1 A.data).map (fun d => ⟨d, A.size⟩)
  else
    none

/-- Innermost loop of `impl Mul for DMatrix` (`dynamic.rs:204-215`):
`mat.data[p][m] += self.data[n][m] * rhs.data[p][n]` for `n = 0, …, cnt-1`. -/
def mulInner [Add α] [Mul α] (Ad Bd : List (List α)) (m p : Nat) :
    Nat → List (List α) → Option (List (List α))
  | 0, d => some d
  | n + 1, d => do
    let d' ← mulInner Ad Bd m p n d
    let x ← getCell Ad n m
    let y ← getCell Bd p n
    let c ← getCell d' p m
    setCell d' p m (c + x * y)

/-- Middle loop of `impl Mul for DMatrix`: `p = 0, …, cnt-1`, inner bound
`nn` (`self.size.1`). -/
def mulMid [Add α] [Mul α] (Ad Bd : List (List α)) (m nn : Nat) :
    Nat → List (List α) → Option (List (List α))
  | 0, d => some d
  | p + 1, d => do
    let d' ← mulMid Ad Bd m nn p d
    mulInner Ad Bd m p nn d'

/-- Outer loop of `impl Mul for DMatrix`: `m = 0, …, cnt-1`, middle bound
`pp` (`rhs.size.1`), inner bound `nn` (`self.size.1`). -/
def mulOuter [Add α] [Mul α] (Ad Bd : List (List α)) (pp nn : Nat) :
    Nat → List (List α) → Option (List (List α))
  | 0, d => some d
  | m + 1, d => do
    let d' ← mulOuter Ad Bd pp nn m d
    mulMid Ad Bd m nn pp d'

/-- `impl Mul for DMatrix` (`dynamic.rs:201-216`):
`assert_eq!(self.size.0, rhs.size.1)` (`none` on mismatch), accumulator
`default_with_size((rhs.size.1, self.size.0))`, then the triple loop
`m in 0..self.size.0`, `p in 0..rhs.size.1`, `n in 0..self.size.1`. -/
def DMatrix.mul [Inhabited α] [Add α] [Mul α] (A B : DMatrix α) :
    Option (DMatrix α) :=
  if A.size.1 = B.size.2 then
    (mulOuter A.data B.data B.size.2 A.size.2 A.size.1
        (DMatrix.default_with_size (α := α) (B.size.2, A.size.1)).data).map
      (fun d => ⟨d, (B.size.2, A.size.1)⟩)
  else
    none

/-- Inner loop shared by the non-assigning scalar operators
(`mat.rs:341-353, 365-377` and `dynamic.rs:261-273, 285-297`): for a fixed
`m`, update `data[m][n] = f data[m][n]` for `n = 0, …, cnt-1`. -/
def scalarInner (f : α → α) (m : Nat) :
    Nat → List (List α) → Option (List (List α))
  | 0, d => some d
  | n + 1, d => do
    let d' ← scalarInner f m n d
    let v ← getCell d' m n
    setCell d' m n (f v)

/-- Outer loop of the non-assigning scalar operators: `m = 0, …, cnt-1`,
inner bound `q`. -/
def scalarOuter (f : α → α) (q : Nat) :
    Nat → List (List α) → Option (List (List α))
  | 0, d => some d
  | m + 1, d => do
    let d' ← scalarOuter f q m d
    scalarInner f m q d'

/-- `impl Mul<T> for Matrix<T,M,N>` (`mat.rs:341-353`): scale a scratch copy
(`let mut mat = self`) via `mat[[m,n]] *= rhs` for `m in 0..M`,
`n in 0..N`, then return `self` — the original backing store `d`. -/
def Matrix.mulScalar [Mul α] (M N : Nat) (d : List (List α)) (s : α) :
    Option (List (List α)) :=
  (scalarOuter (fun v => v * s) N M d).map (fun _ => d)

/-- `impl Div<T> for Matrix<T,M,N>` (`mat.rs:365-377`): like `mulScalar`
with `/=`, returning `self`. -/
def Matrix.divScalar [Div α] (M N : Nat) (d : List (List α)) (s : α) :
    Option (List (List α)) :=
  (scalarOuter (fun v => v / s) N M d).map (fun _ => d)

/-- `impl Mul<T> for DMatrix` (`dynamic.rs:261-273`): scale a clone via
`mat.data[m][n] *= rhs` for `m in 0..size.0`, `n in 0..size.1`, then
return `self`. -/
def DMatrix.mulScalar [Mul α] (A : DMatrix α) (s : α) : Option (DMatrix α) :=
  (scalarOuter (fun v => v * s) A.size.2 A.size.1 A.data).map (fun _ => A)

/-- `impl Div<T> for DMatrix` (`dynamic.rs:285-297`): like `mulScalar`
with `/=`, returning `self`. -/
def DMatrix.divScalar [Div α] (A : DMatrix α) (s : α) : Option (DMatrix α) :=
  (scalarOuter (fun v => v / s) A.size.2 A.size.1 A.data).map (fun _ => A)

/-- Loop of `DVector::dot` (`dynamic.rs:28-34`): `sum += self.data[i]` for
`i = 0, …, cnt-1`, starting from `T::default()`. -/
def dotLoop [Add α] (data : List α) : Nat → α → Option α
  | 0, acc => some acc
  | n + 1, acc => do
    let s ← dotLoop data n acc
    let x ← data.get? n
    some (s + x)

/-- `DVector::dot` (`dynamic.rs:27-35`): sums `self.data[0..self.len]`
starting from `T::default()`; the argument `w` (Rust `other`) is never
read. -/
def DVector.dot [Add α] [Inhabited α] (v : DVector α) (w : DVector α) :
    Option α :=
  dotLoop v.data v.len default

/-! ### Lemmas about the checked cell accessors -/

theorem getRow_of_wf {d : List (List α)} {rows cols : Nat}
    (h : WFd d rows cols) {i : Nat} (hi : i < cols) :
    ∃ r, d.get? i = some r ∧ r.length = rows := by
  have hi' : i < d.length := by rw [h.1]; exact hi
  exact ⟨d.get ⟨i, hi'⟩, List.get?_eq_get hi', h.2 _ (List.get_mem d i hi')⟩

theorem getCell_of_wf {d : List (List α)} {rows cols : Nat}
    (h : WFd d rows cols) {i j : Nat} (hi : i < cols) (hj : j < rows) :
    ∃ a, getCell d i j = some a := by
  obtain ⟨r, hr, hrl⟩ := getRow_of_wf h hi
  have hj' : j < r.length := by rw [hrl]; exact hj
  refine ⟨r.get ⟨j, hj'⟩, ?_⟩
  unfold getCell
  rw [hr]
  exact List.get?_eq_get hj'

theorem setCell_eq {d : List (List α)} {i : Nat} {r : List α}
    (hr : d.get? i = some r) {j : Nat} (hj : j < r.length) (v : α) :
    setCell d i j v = some (d.set i (r.set j v)) := by
  unfold setCell
  rw [hr]
  simp [hj]

theorem WFd_set {d : List (List α)} {rows cols : Nat} (h : WFd d rows cols)
    {i : Nat} {r : List α} (hr : d.get? i = some r) {j : Nat} (v : α) :
    WFd (d.set i (r.set j v)) rows cols := by
  constructor
  · rw [List.length_set]; exact h.1
  · intro r' hr'
    rcases List.mem_or_eq_of_mem_set hr' with hmem | rfl
    · exact h.2 r' hmem
    · rw [List.length_set]; exact h.2 r (List.get?_mem hr)

theorem getCell_set_same {d : List (List α)} {i : Nat} {r : List α}
    (hr : d.get? i = some r) {j : Nat} (hj : j < r.length) (v : α) :
    getCell (d.set i (r.set j v)) i j = some v := by
  have hi : i < d.length := by
    rcases List.get?_eq_some.mp hr with ⟨h1, _⟩
    exact h1
  unfold getCell
  rw [List.get?_set_eq_of_lt _ hi]
  exact List.get?_set_eq_of_lt v hj

theorem getCell_set_other {d : List (List α)} {i : Nat} {r : List α}
    (hr : d.get? i = some r) {j : Nat} (v : α) {i' j' : Nat}
    (hne : ¬(i' = i ∧ j' = j)) :
    getCell (d.set i (r.set j v)) i' j' = getCell d i' j' := by
  unfold getCell
  by_cases hii : i = i'
  · subst hii
    have hi : i < d.length := by
      rcases List.get?_eq_some.mp hr with ⟨h1, _⟩
      exact h1
    rw [List.get?_set_eq_of_lt _ hi, hr]
    have hjj : j ≠ j' := fun h => hne ⟨rfl, h.symm⟩
    exact List.get?_set_ne v r hjj
  · rw [List.get?_set_ne _ _ hii]

/-! ### Loop invariants for `DMatrix` addition -/

theorem addCol_spec [Add α] {Bd : List (List α)} {rows cols : Nat}
    (hB : WFd Bd rows cols) {m : Nat} (hm : m < rows)
    {n : Nat} (hn : n ≤ cols) {d : List (List α)} (hd : WFd d rows cols) :
    ∃ d', addCol Bd m n d = some d' ∧ WFd d' rows cols ∧
      (∀ i j, ¬(i < n ∧ j = m) → getCell d' i j = getCell d i j) ∧
      (∀ i, i < n → ∃ a b, getCell d i m = some a ∧
        getCell Bd i m = some b ∧ getCell d' i m = some (a + b)) := by
  induction n with
  | zero =>
    exact ⟨d, rfl, hd, fun i j _ => rfl, fun i hi => absurd hi (Nat.not_lt_zero i)⟩
  | succ n ih =>
    obtain ⟨d1, hrun, hwf1, hsame1, hsum1⟩ := ih (Nat.le_of_succ_le hn)
    obtain ⟨b, hb⟩ := getCell_of_wf hB (Nat.lt_of_succ_le hn) hm
    obtain ⟨a, ha⟩ := getCell_of_wf hd (Nat.lt_of_succ_le hn) hm
    have ha1 : getCell d1 n m = some a := by
      rw [hsame1 n m (fun h => Nat.lt_irrefl n h.1)]
      exact ha
    obtain ⟨r, hr, hrl⟩ := getRow_of_wf hwf1 (Nat.lt_of_succ_le hn)
    have hmr : m < r.length := by rw [hrl]; exact hm
    refine ⟨d1.set n (r.set m (a + b)), ?_, WFd_set hwf1 hr (a + b), ?_, ?_⟩
    · show addCol Bd m (n + 1) d = _
      unfold addCol
      rw [hrun]
      simp [hb, ha1, setCell_eq hr hmr]
    · intro i j hij
      rw [getCell_set_other hr (a + b) (fun h => hij ⟨by omega, h.2⟩)]
      exact hsame1 i j (fun h => hij ⟨by omega, h.2⟩)
    · intro i hi
      rcases Nat.lt_succ_iff_lt_or_eq.mp hi with hlt | rfl
      · obtain ⟨a', b', h1, h2, h3⟩ := hsum1 i hlt
        refine ⟨a', b', h1, h2, ?_⟩
        rw [getCell_set_other hr (a + b) (fun h => by omega)]
        exact h3
      · exact ⟨a, b, ha, hb, getCell_set_same hr hmr (a + b)⟩

theorem addRows_spec [Add α] {Bd : List (List α)} {rows cols : Nat}
    (hB : WFd Bd rows cols) {mcnt : Nat} (hmc : mcnt ≤ rows)
    {d : List (List α)} (hd : WFd d rows cols) :
    ∃ d', addRows Bd cols mcnt d = some d' ∧ WFd d' rows cols ∧
      (∀ i j, ¬(i < cols ∧ j < mcnt) → getCell d' i j = getCell d i j) ∧
      (∀ i j, i < cols → j < mcnt → ∃ a b, getCell d i j = some a ∧
        getCell Bd i j = some b ∧ getCell d' i j = some (a + b)) := by
  induction mcnt with
  | zero =>
    exact ⟨d, rfl, hd, fun i j _ => rfl, fun i j _ hj => absurd hj (Nat.not_lt_zero j)⟩
  | succ m ih =>
    obtain ⟨d1, hrun, hwf1, hsame1, hsum1⟩ := ih (Nat.le_of_succ_le hmc)
    obtain ⟨d2, hrun2, hwf2, hsame2, hsum2⟩ :=
      addCol_spec hB (Nat.lt_of_succ_le hmc) (Nat.le_refl cols) hwf1
    refine ⟨d2, ?_, hwf2, ?_, ?_⟩
    · show addRows Bd cols (m + 1) d = _
      unfold addRows
      rw [hrun]
      exact hrun2
    · intro i j hij
      rw [hsame2 i j (fun h => hij ⟨h.1, by omega⟩)]
      exact hsame1 i j (fun h => hij ⟨h.1, by omega⟩)
    · intro i j hi hj
      rcases Nat.lt_succ_iff_lt_or_eq.mp hj with hlt | rfl
      · obtain ⟨a, b, h1, h2, h3⟩ := hsum1 i j hi hlt
        refine ⟨a, b, h1, h2, ?_⟩
        rw [hsame2 i j (fun h => by omega)]
        exact h3
      · obtain ⟨a, b, h1, h2, h3⟩ := hsum2 i hi
        refine ⟨a, b, ?_, h2, h3⟩
        rw [hsame1 i j (fun h => by omega)] at h1
        exact h1

/-! ### Loop invariants for the non-assigning scalar operators -/

theorem scalarInner_spec {f : α → α} {rows cols : Nat} {m : Nat}
    (hm : m < cols) {n : Nat} (hn : n ≤ rows)
    {d : List (List α)} (hd : WFd d rows cols) :
    ∃ d', scalarInner f m n d = some d' ∧ WFd d' rows cols := by
  induction n with
  | zero => exact ⟨d, rfl, hd⟩
  | succ n ih =>
    obtain ⟨d1, hrun, hwf1⟩ := ih (Nat.le_of_succ_le hn)
    obtain ⟨v, hv⟩ := getCell_of_wf hwf1 hm (Nat.lt_of_succ_le hn)
    obtain ⟨r, hr, hrl⟩ := getRow_of_wf hwf1 hm
    have hnr : n < r.length := by rw [hrl]; exact Nat.lt_of_succ_le hn
    refine ⟨d1.set m (r.set n (f v)), ?_, WFd_set hwf1 hr (f v)⟩
    show scalarInner f m (n + 1) d = _
    unfold scalarInner
    rw [hrun]
    simp [hv, setCell_eq hr hnr]

theorem scalarOuter_spec {f : α → α} {rows cols : Nat} {q : Nat}
    (hq : q ≤ rows) {p : Nat} (hp : p ≤ cols)
    {d : List (List α)} (hd : WFd d rows cols) :
    ∃ d', scalarOuter f q p d = some d' ∧ WFd d' rows cols := by
  induction p with
  | zero => exact ⟨d, rfl, hd⟩
  | succ p ih =>
    obtain ⟨d1, hrun, hwf1⟩ := ih (Nat.le_of_succ_le hp)
    obtain ⟨d2, hrun2, hwf2⟩ :=
      scalarInner_spec (f := f) (Nat.lt_of_succ_le hp) hq hwf1
    refine ⟨d2, ?_, hwf2⟩
    show scalarOuter f q (p + 1) d = _
    unfold scalarOuter
    rw [hrun]
    exact hrun2

/-! ### The `dot` loop computes the fold of the receiver's own data -/

theorem dotLoop_eq_foldl [Add α] (data : List α) {n : Nat}
    (hn : n ≤ data.length) (acc : α) :
    dotLoop data n acc = some ((data.take n).foldl (fun s x => s + x) acc) := by
  induction n with
  | zero => rfl
  | succ n ih =>
    have hlt := Nat.lt_of_succ_le hn
    have hx : data.get? n = some (data.get ⟨n, hlt⟩) := List.get?_eq_get hlt
    have hx' : data[n]? = some (data.get ⟨n, hlt⟩) := by
      rw [← List.get?_eq_getElem?]
      exact hx
    unfold dotLoop
    rw [ih (Nat.le_of_succ_le hn)]
    simp only [Option.some_bind, hx, hx', List.take_succ, Option.toList_some,
      List.foldl_append, List.foldl_cons, List.foldl_nil]
    rfl

/-! ### Claim theorems -/

/-- Claim C1: the spec says converting a `DVector` built from `"1 2 3"` to a
single-column `DMatrix` and back reproduces the original elements.  On the
code this fails: `From<DVector>` records `size = (len, 0)` — zero columns —
so the matrix→vector conversion's `assert_eq!(rhs.size.1, 1)` panics
(`none`).  The vector itself was parsed correctly, so the slip is in the
conversion's size tuple, contradicting `DMatrix::new`'s own invariant
`size.1 = data.len()`. -/
theorem C1_roundtrip_panics_on_conversion_bug :
    (DVector.fromString parseInt "1 2 3").data = [1, 2, 3] ∧
    (DMatrix.fromDVector (DVector.fromString parseInt "1 2 3")).data = [[1, 2, 3]] ∧
    (DMatrix.fromDVector (DVector.fromString parseInt "1 2 3")).size = (3, 0) ∧
    DVector.fromDMatrix (DMatrix.fromDVector (DVector.fromString parseInt "1 2 3")) =
      none := by
  decide

/-- Claim C2: the determinant of a 2×2 matrix should be the true cross
product `self[[0,0]]*self[[1,1]] - self[[1,0]]*self[[0,1]]`.  The code
squares the `[[1,0]]` entry instead: on `data = [[1,2],[3,4]]`
(`[[0,0]]=1, [[0,1]]=2, [[1,0]]=3, [[1,1]]=4`) it returns
`1*4 - 3*3 = -5` where the true value is `1*4 - 3*2 = -2`. -/
theorem C2_det2_uses_wrong_offdiagonal_entry :
    determinant 2 [[(1 : Int), 2], [3, 4]] = some (1 * 4 - 3 * 3) ∧
    determinant 2 [[(1 : Int), 2], [3, 4]] ≠ some (1 * 4 - 3 * 2) := by
  decide

/-- Claim C3: a malformed token should fail the construction with a parse
error.  The code instead silently replaces it by `T::default()`
(`unwrap_or_else(|t| <T>::default())`): parsing `"1 x 3"` yields `[1, 0, 3]`
and the matrix parser behaves the same way. -/
theorem C3_parse_silently_substitutes_default :
    parseInt ['x'] = none ∧
    DVector.fromString parseInt "1 x 3" = ⟨[1, 0, 3], 3⟩ ∧
    (DMatrix.fromString parseInt "1 x;2 3").map DMatrix.data =
      some [[1, 0], [2, 3]] := by
  decide

/-- Claim C4: `DMatrix` multiplication should succeed exactly when the left
column count equals the right row count and fail fatally otherwise.  The
code asserts `self.size.0 == rhs.size.1` (left **rows** against right
**columns**) instead: the 2×1 matrix `[[1],[2]]` times the 2×2 all-ones
matrix is shape-incompatible (1 column against 2 rows), yet the assert
passes (2 rows = 2 columns) and the loop sums only over the left's single
column, silently returning a truncated 2×2 "product". -/
theorem C4_mul_assert_checks_wrong_pair_and_truncates :
    (DMatrix.new [[(1 : Int), 2]]).size.2 ≠ (DMatrix.new [[(1 : Int), 1], [1, 1]]).size.1 ∧
    DMatrix.mul (DMatrix.new [[(1 : Int), 2]]) (DMatrix.new [[(1 : Int), 1], [1, 1]]) =
      some ⟨[[1, 2], [1, 2]], (2, 2)⟩ := by
  decide

/-- Claim C5 counterexample: the claim quantifies over *every* fixed matrix
and every `DMatrix`, but for any non-square shape the scalar loop indexes
`data[m][n]` with the bounds swapped and panics instead of returning the
operand: on the 2×1 fixed matrix `[[5,6]]` (`M=2`, `N=1`) `A * 3` is `none`,
not `some [[5,6]]`, and the same holds for the corresponding `DMatrix`. -/
theorem C5_counterexample_nonsquare_scalar_mul_panics :
    Matrix.mulScalar 2 1 [[(5 : Int), 6]] 3 = none ∧
    Matrix.mulScalar 2 1 [[(5 : Int), 6]] 3 ≠ some [[5, 6]] ∧
    DMatrix.mulScalar (DMatrix.new [[(5 : Int), 6]]) 3 = none := by
  decide

/-- Claim C5 (amended to square shapes): for every square fixed `Matrix`
and every square well-formed `DMatrix`, the non-assigning scalar `mul` and
`div` compute the scaled values into a scratch copy but return the original
unmodified operand (`A * s == A`, `A / s == A`). -/
theorem C5_scalar_ops_return_original_on_square [Mul α] [Div α] (N : Nat)
    (d : List (List α)) (s : α) (hd : WFd d N N)
    (A : DMatrix α) (hA : A.WF) (hsq : A.size.1 = A.size.2) :
    Matrix.mulScalar N N d s = some d ∧ Matrix.divScalar N N d s = some d ∧
    A.mulScalar s = some A ∧ A.divScalar s = some A := by
  refine ⟨?_, ?_, ?_, ?_⟩
  · obtain ⟨d', h, _⟩ :=
      scalarOuter_spec (f := fun v => v * s) (Nat.le_refl N) (Nat.le_refl N) hd
    simp [Matrix.mulScalar, h]
  · obtain ⟨d', h, _⟩ :=
      scalarOuter_spec (f := fun v => v / s) (Nat.le_refl N) (Nat.le_refl N) hd
    simp [Matrix.divScalar, h]
  · obtain ⟨d', h, _⟩ := scalarOuter_spec (f := fun v => v * s)
      (q := A.size.2) (p := A.size.1) (by omega) (by omega) hA
    simp [DMatrix.mulScalar, h]
  · obtain ⟨d', h, _⟩ := scalarOuter_spec (f := fun v => v / s)
      (q := A.size.2) (p := A.size.1) (by omega) (by omega) hA
    simp [DMatrix.divScalar, h]

/-- Witness for the amended claim C5 at a concrete square input. -/
theorem C5_amended_witness :
    WFd [[(7 : Int), 8], [9, 10]] 2 2 ∧
    (Matrix.mulScalar 2 2 [[(7 : Int), 8], [9, 10]] 3 = some [[7, 8], [9, 10]] ∧
     Matrix.divScalar 2 2 [[(7 : Int), 8], [9, 10]] 3 = some [[7, 8], [9, 10]] ∧
     (DMatrix.new [[(7 : Int), 8], [9, 10]]).mulScalar 3 =
       some (DMatrix.new [[(7 : Int), 8], [9, 10]]) ∧
     (DMatrix.new [[(7 : Int), 8], [9, 10]]).divScalar 3 =
       some (DMatrix.new [[(7 : Int), 8], [9, 10]])) :=
  ⟨by decide, C5_scalar_ops_return_original_on_square 2 [[(7 : Int), 8], [9, 10]] 3
    (by decide) (DMatrix.new [[(7 : Int), 8], [9, 10]]) (by decide) (by decide)⟩

/-- Claim C6: `DMatrix` addition fails fatally (`none`) whenever the size
tuples differ, and on equal sizes returns a new matrix of the same size
whose every cell is the elementwise sum of the operands. -/
theorem C6_add_dimension_check_and_elementwise_sum [Add α]
    (A B : DMatrix α) (hA : A.WF) (hB : B.WF) :
    (A.size ≠ B.size → A.add B = none) ∧
    (A.size = B.size → ∃ C, A.add B = some C ∧ C.size = A.size ∧ C.WF ∧
      ∀ i j, i < A.size.2 → j < A.size.1 →
        ∃ a b, getCell A.data i j = some a ∧ getCell B.data i j = some b ∧
          getCell C.data i j = some (a + b)) := by
  constructor
  · intro hne
    simp [DMatrix.add, hne]
  · intro heq
    have hB' : WFd B.data A.size.1 A.size.2 := by
      rw [heq]
      exact hB
    obtain ⟨d', hrun, hwf, _, hsum⟩ :=
      addRows_spec hB' (Nat.le_refl A.size.1) hA
    refine ⟨⟨d', A.size⟩, ?_, rfl, hwf, fun i j hi hj => hsum i j hi hj⟩
    unfold DMatrix.add
    rw [if_pos heq, hrun]
    rfl

/-- Witness for claim C6: the spec's own example — shapes `(2,2)` and
`(3,3)` must fail, equal shapes add elementwise. -/
theorem C6_witness :
    ((DMatrix.new [[(1 : Int), 2], [3, 4]]).size ≠
        (DMatrix.new [[(5 : Int), 6, 7], [7, 8, 9], [1, 2, 3]]).size →
      (DMatrix.new [[(1 : Int), 2], [3, 4]]).add
        (DMatrix.new [[(5 : Int), 6, 7], [7, 8, 9], [1, 2, 3]]) = none) ∧
    ((DMatrix.new [[(1 : Int), 2], [3, 4]]).size ≠
        (DMatrix.new [[(5 : Int), 6, 7], [7, 8, 9], [1, 2, 3]]).size) ∧
    (∃ C, (DMatrix.new [[(1 : Int), 2], [3, 4]]).add
        (DMatrix.new [[(5 : Int), 6], [7, 8]]) = some C ∧
      C.size = (DMatrix.new [[(1 : Int), 2], [3, 4]]).size ∧ C.WF ∧
      ∀ i j, i < (DMatrix.new [[(1 : Int), 2], [3, 4]]).size.2 →
          j < (DMatrix.new [[(1 : Int), 2], [3, 4]]).size.1 →
        ∃ a b, getCell (DMatrix.new [[(1 : Int), 2], [3, 4]]).data i j = some a ∧
          getCell (DMatrix.new [[(5 : Int), 6], [7, 8]]).data i j = some b ∧
          getCell C.data i j = some (a + b)) :=
  ⟨(C6_add_dimension_check_and_elementwise_sum
      (DMatrix.new [[(1 : Int), 2], [3, 4]])
      (DMatrix.new [[(5 : Int), 6, 7], [7, 8, 9], [1, 2, 3]])
      (by decide) (by decide)).1,
   by decide,
   (C6_add_dimension_check_and_elementwise_sum
      (DMatrix.new [[(1 : Int), 2], [3, 4]])
      (DMatrix.new [[(5 : Int), 6], [7, 8]])
      (by decide) (by decide)).2 rfl⟩

/-- Claim C7: parsing `"4 3 2;2 2 -1"` yields `size == (3, 2)` with
`data[0][0] == 4` and `data[1][2] == -1` (semicolon-separated columns of
space-separated elements). -/
theorem C7_parse_matrix_example :
    (DMatrix.fromString parseInt "4 3 2;2 2 -1").map (fun M => M.size) =
      some (3, 2) ∧
    (DMatrix.fromString parseInt "4 3 2;2 2 -1").bind
      (fun M => getCell M.data 0 0) = some 4 ∧
    (DMatrix.fromString parseInt "4 3 2;2 2 -1").bind
      (fun M => getCell M.data 1 2) = some (-1) := by
  decide

/-- Claim C8: the determinant of any square matrix of dimension above 3 is
`unimplemented!` — it fails explicitly (`none`) and never returns a numeric
value. -/
theorem C8_det_above_three_is_unimplemented [One α] [Mul α] [Add α] [Sub α]
    (M : Nat) (h : 3 < M) (d : List (List α)) : determinant M d = none := by
  obtain ⟨k, rfl⟩ : ∃ k, M = k + 4 := ⟨M - 4, by omega⟩
  rfl

/-- Witness for claim C8 at dimension 4. -/
theorem C8_witness : 3 < 4 ∧ determinant 4 ([[]] : List (List Int)) = none :=
  ⟨by decide, C8_det_above_three_is_unimplemented 4 (by decide) [[]]⟩

/-- Claim C9: the code's 3×3 determinant (a cofactor expansion reading the
entries in transposed order) is zero whenever two rows — in the `[[col,row]]`
convention, so `getCell d c r` is column `c`, row `r` — coincide. -/
theorem C9_det3_repeated_row_is_zero [CommRing α] (d : List (List α))
    (hwf : WFd d 3 3) (r1 r2 : Nat) (h1 : r1 < 3) (h2 : r2 < 3)
    (hne : r1 ≠ r2) (heq : ∀ c, c < 3 → getCell d c r1 = getCell d c r2) :
    determinant 3 d = some 0 := by
  obtain ⟨c0, c1, c2, rfl⟩ := List.length_eq_three.mp hwf.1
  obtain ⟨x00, x01, x02, rfl⟩ := List.length_eq_three.mp (hwf.2 c0 (by simp))
  obtain ⟨x10, x11, x12, rfl⟩ := List.length_eq_three.mp (hwf.2 c1 (by simp))
  obtain ⟨x20, x21, x22, rfl⟩ := List.length_eq_three.mp (hwf.2 c2 (by simp))
  have e0 := heq 0 (by omega)
  have e1 := heq 1 (by omega)
  have e2 := heq 2 (by omega)
  interval_cases r1 <;> interval_cases r2 <;>
    simp_all [determinant, getCell] <;> ring

/-- Witness for claim C9: rows 0 and 2 of a concrete 3×3 matrix coincide. -/
theorem C9_witness :
    WFd [[(1 : Int), 2, 1], [4, 5, 4], [7, 8, 7]] 3 3 ∧
    determinant 3 [[(1 : Int), 2, 1], [4, 5, 4], [7, 8, 7]] = some 0 :=
  ⟨by decide, C9_det3_repeated_row_is_zero [[(1 : Int), 2, 1], [4, 5, 4], [7, 8, 7]]
    (by decide) 0 2 (by decide) (by decide) (by decide)
    (by intro c hc; interval_cases c <;> decide)⟩

/-- Claim C10: `DVector::dot` sums the receiver's own elements starting
from `T::default()` and never reads its argument — the result is identical
for any `w` and equals the fold of `v.data`. -/
theorem C10_dot_sums_own_elements_ignoring_argument [Add α] [Inhabited α]
    (v w w' : DVector α) (h : v.len = v.data.length) :
    v.dot w = v.dot w' ∧
    v.dot w = some (v.data.foldl (fun s x => s + x) default) := by
  refine ⟨rfl, ?_⟩
  unfold DVector.dot
  rw [dotLoop_eq_foldl v.data (by omega) default, h, List.take_length]

/-- Witness for claim C10 with `v = [1,2,3]` against two different `w`s. -/
theorem C10_witness :
    (DVector.new [(1 : Int), 2, 3]).len = (DVector.new [(1 : Int), 2, 3]).data.length ∧
    ((DVector.new [(1 : Int), 2, 3]).dot (DVector.new [(9 : Int)]) =
       (DVector.new [(1 : Int), 2, 3]).dot (DVector.new ([] : List Int)) ∧
     (DVector.new [(1 : Int), 2, 3]).dot (DVector.new [(9 : Int)]) =
       some ((DVector.new [(1 : Int), 2, 3]).data.foldl (fun s x => s + x) default)) :=
  ⟨by decide, C10_dot_sums_own_elements_ignoring_argument
    (DVector.new [(1 : Int), 2, 3]) (DVector.new [(9 : Int)])
    (DVector.new ([] : List Int)) (by decide)⟩

end GammaRay
